import Mathlib

/-!
Verification of the Crossroads IPC object-dispatch registry
(src/dbus/src/crossroads/crossroads.rs), shallowly embedded in Lean 4.

Modelling conventions:
* Rust `TypeId` becomes an opaque `Nat` tag; `TypeId::of::<I>()` becomes an
  explicit tag argument (the tag is issued once per concrete type and only
  compared for equality, so any equality-comparable carrier is faithful).
* `CString`/`CStr` keys become `String`.
* `std::collections::BTreeMap` becomes an association list with at most one
  entry per key, with `insert` returning the displaced value exactly as
  `BTreeMap::insert` does.  Only `get`/`insert` are used by the source, so
  this carrier is observationally equivalent.
* The message abstraction (consumed, never inspected beyond headers) becomes
  a record of a message kind plus optional path/interface/member headers and
  an uninterpreted body.
* Handlers (`H = ()`, the sync handler family): the handler of a method takes
  the instance and the message and returns `Option Message`, matching the
  sync handlers used with `Crossroads<()>` (`Some(msg.method_return()...)` in
  the test in the source); the call `r.into_iter().collect()` in `dispatch` becomes
  `Option.toList`.  The `&mut SyncInfo` context argument carries only shared
  references for nested lookups and is elided from the domain of the handler
  (storing a handler whose domain mentions `Crossroads` itself would be a
  non-positive occurrence; no verified property inspects the context).
* The instance type `H::Iface` (a boxed `dyn Any`) becomes a type parameter
  `V`: instances are values of `V` tagged with a `TypeId`.
-/

/-- Rust `std::any::TypeId`: an opaque equality-comparable tag. -/
abbrev TypeId : Type := Nat

/-- The message kinds of the wire protocol (`dbus::MessageType`).  The code
under verification only ever compares against `MethodCall`. -/
inductive MessageType : Type
  | methodCall
  | methodReturn
  | error
  | signal
deriving DecidableEq

/-- The consumed message abstraction: kind, optional path / interface /
member headers, and a body this core never inspects (replies built by
handlers are opaque values to the dispatcher). -/
structure Message : Type where
  msg_type : MessageType
  path : Option String
  interface : Option String
  member : Option String
  body : List String
deriving DecidableEq

/-- Model of `std::collections::BTreeMap<CString, A>` as an association
list; `insert` keeps at most one entry per key. -/
abbrev BMap (A : Type) : Type := List (String × A)

namespace BMap

/-- `BTreeMap::get`: the value stored under `k`, if any. -/
def get {A : Type} (m : BMap A) (k : String) : Option A :=
  match m with
  | [] => none
  | e :: rest => if e.1 == k then some e.2 else get rest k

/-- `BTreeMap::insert`: stores `v` under `k`, returning the new map together
with the value previously stored under `k`, if any. -/
def insert {A : Type} (m : BMap A) (k : String) (v : A) : BMap A × Option A :=
  match m with
  | [] => ([(k, v)], none)
  | e :: rest =>
    if e.1 == k then ((k, v) :: rest, some e.2)
    else
      let r := insert rest k v
      (e :: r.1, r.2)

end BMap

/-- `MethodInfo` (from `super::info`, shape fixed by its uses in
`crossroads.rs` and the sync handlers): a method name and its handler. -/
structure MethodInfo (V : Type) : Type where
  name : String
  handler : V → Message → Option Message

/-- `PropInfo` (from `super::info`): only its `name` is consulted by the code
under verification (`reg_prop_lookup`); getter/setter and access mode live in
the handlers module and are irrelevant to the lookup contract. -/
structure PropInfo (V : Type) : Type where
  name : String

/-- `IfaceInfo`: interface name, ordered method list, ordered property
list. -/
structure IfaceInfo (V : Type) : Type where
  name : String
  methods : List (MethodInfo V)
  props : List (PropInfo V)

/-- `PathData<H>`: an ordered sequence of (type tag, instance) pairs. -/
abbrev PathData (V : Type) : Type := List (TypeId × V)

namespace PathData

/-- `PathData::new`. -/
def new {V : Type} : PathData V := []

/-- `PathData::insert::<I>(i)`: pushes `(TypeId::of::<I>(), box i)`; the tag
computed by the language is the explicit `id` argument here. -/
def insert {V : Type} (d : PathData V) (id : TypeId) (i : V) : PathData V :=
  d ++ [(id, i)]

end PathData

/-- The three headers extracted from a method-call message. -/
structure MsgHeaders : Type where
  m : String
  i : String
  p : String
deriving DecidableEq

/-- `msg_headers`: `None` unless the message is a method call carrying all
three headers, extracted in source order path, interface, member. -/
def msg_headers (msg : Message) : Option MsgHeaders :=
  if msg.msg_type ≠ MessageType.methodCall then none
  else
    match msg.path with
    | none => none
    | some p =>
      match msg.interface with
      | none => none
      | some i =>
        match msg.member with
        | none => none
        | some m => some { m := m, i := i, p := p }

/-- `Crossroads<H>`: the interface registry (`IfaceReg`, keyed by interface
name) and the path table (`IfacePaths`, keyed by path name). -/
structure Crossroads (V : Type) : Type where
  reg : BMap (TypeId × IfaceInfo V)
  paths : BMap (PathData V)

/-- `MLookup`: the bundle of references produced by a successful lookup. -/
structure MLookup (V : Type) : Type where
  cr : Crossroads V
  data : PathData V
  iface : V
  iinfo : IfaceInfo V

namespace Crossroads

/-- `Crossroads::register::<I>(info)`: inserts `(TypeId::of::<I>(), info)`
under `info.name`, returning the new state and the previously stored
`IfaceInfo` for that name, if any. -/
def register {V : Type} (cr : Crossroads V) (id : TypeId) (info : IfaceInfo V) :
    Crossroads V × Option (IfaceInfo V) :=
  let r := cr.reg.insert info.name (id, info)
  ({ cr with reg := r.1 }, r.2.map Prod.snd)

/-- `Crossroads::insert(name, data)`: stores `data` under `name` in the path
table (the displaced entry is dropped by the source, and here). -/
def insert {V : Type} (cr : Crossroads V) (name : String) (data : PathData V) :
    Crossroads V :=
  { cr with paths := (cr.paths.insert name data).1 }

/-- `Crossroads::get_data(name)`. -/
def get_data {V : Type} (cr : Crossroads V) (name : String) : Option (PathData V) :=
  cr.paths.get name

/-- `Crossroads::reg_lookup(headers)`: registry lookup by interface name,
first-match scan of the methods of that interface by member name,
path-table lookup, first-match scan of the instances at that path by the
registered tag. -/
def reg_lookup {V : Type} (cr : Crossroads V) (headers : MsgHeaders) :
    Option (MLookup V × MethodInfo V) :=
  match cr.reg.get headers.i with
  | none => none
  | some ti =>
    match ti.2.methods.find? (fun x => x.name == headers.m) with
    | none => none
    | some minfo =>
      match cr.paths.get headers.p with
      | none => none
      | some data =>
        match data.find? (fun x => x.1 == ti.1) with
        | none => none
        | some e =>
          some ({ cr := cr, data := data, iface := e.2, iinfo := ti.2 }, minfo)

/-- `Crossroads::reg_prop_lookup(data, iname, propname)`: registry lookup by
interface name, first-match scan of the properties of that interface by property
name, first-match scan of the given path data by the registered tag. -/
def reg_prop_lookup {V : Type} (cr : Crossroads V) (data : PathData V)
    (iname propname : String) : Option (MLookup V × PropInfo V) :=
  match cr.reg.get iname with
  | none => none
  | some ti =>
    match ti.2.props.find? (fun x => x.name == propname) with
    | none => none
    | some pinfo =>
      match data.find? (fun x => x.1 == ti.1) with
      | none => none
      | some e =>
        some ({ cr := cr, data := data, iface := e.2, iinfo := ti.2 }, pinfo)

/-- `Crossroads::<()>::dispatch(msg)`: header extraction, lookup, handler
invocation, reply collection (`r.into_iter().collect()` on the sync
on the handler result of type `Option<Message>` is `Option.toList`). -/
def dispatch {V : Type} (cr : Crossroads V) (msg : Message) : Option (List Message) :=
  match msg_headers msg with
  | none => none
  | some headers =>
    match cr.reg_lookup headers with
    | none => none
    | some lm =>
      let r := lm.2.handler lm.1.iface msg
      some r.toList

/-- Explicit-state form of `fn dispatch(&self, msg)`: the receiver is taken
by shared reference in the source, so its state-passing embedding threads
the receiver through unchanged alongside the result. -/
def dispatchSt {V : Type} (cr : Crossroads V) (msg : Message) :
    Crossroads V × Option (List Message) :=
  (cr, cr.dispatch msg)

end Crossroads

/-- Modelled from the spec: the `TypeId` issued for the `DBusProperties`
marker type of `super::stdimpl`, whose source file is not among the sources. -/
def dbusPropertiesTypeId : TypeId := (0 : Nat)

/-- Modelled from the spec: the builtin properties `IfaceInfo` registered by
`DBusProperties::register` (`super::stdimpl`, not among the sources): the
interface named "org.freedesktop.DBus.Properties" (name as used by the
test in the source) exposing methods Get, Set and GetAll.  The handler bodies
live in the missing file; the spec says they re-resolve their string
arguments through `reg_prop_lookup` and answer with value or error replies —
nothing verified here inspects these bodies, which are therefore modelled as
producing no reply. -/
def dbusPropertiesInfo (V : Type) : IfaceInfo V :=
  { name := "org.freedesktop.DBus.Properties"
    methods :=
      [ { name := "Get", handler := fun _ _ => none }
      , { name := "Set", handler := fun _ _ => none }
      , { name := "GetAll", handler := fun _ _ => none } ]
    props := [] }

/-- Modelled from the spec: `DBusProperties::register(&mut cr)` registers the
builtin properties interface under its own type tag. -/
def DBusProperties.register {V : Type} (cr : Crossroads V) : Crossroads V :=
  (cr.register dbusPropertiesTypeId (dbusPropertiesInfo V)).1

/-- `Crossroads::<()>::new_sync()`: empty registry and path table, then the
builtin properties interface is seeded before returning. -/
def Crossroads.new_sync (V : Type) : Crossroads V :=
  DBusProperties.register { reg := [], paths := [] }

/-! Concrete fixtures used by the witness theorems. -/

/-- Method "MA" of the fixture interface "I.A"; its reply records which
instance it was invoked on. -/
def mA : MethodInfo Nat :=
  { name := "MA"
    handler := fun v _ =>
      some { msg_type := MessageType.methodReturn, path := none, interface := none,
             member := none, body := [toString v, "MA"] } }

/-- Fixture interface "I.A". -/
def infoA : IfaceInfo Nat := { name := "I.A", methods := [mA], props := [{ name := "PA" }] }

/-- A second `IfaceInfo` carrying the same name "I.A". -/
def infoA2 : IfaceInfo Nat := { name := "I.A", methods := [], props := [{ name := "PA2" }] }

/-- A third `IfaceInfo` carrying the same name "I.A". -/
def infoA3 : IfaceInfo Nat := { name := "I.A", methods := [], props := [{ name := "PA3" }] }

/-- Method "MB" of the fixture interface "I.B". -/
def mB : MethodInfo Nat :=
  { name := "MB"
    handler := fun v _ =>
      some { msg_type := MessageType.methodReturn, path := none, interface := none,
             member := none, body := [toString v, "MB"] } }

/-- Fixture interface "I.B", backed by a different type tag than "I.A". -/
def infoB : IfaceInfo Nat := { name := "I.B", methods := [mB], props := [{ name := "PB" }] }

/-- First of two same-named methods of the duplicate fixture. -/
def mD1 : MethodInfo Nat :=
  { name := "MD"
    handler := fun _ _ =>
      some { msg_type := MessageType.methodReturn, path := none, interface := none,
             member := none, body := ["first"] } }

/-- Second of two same-named methods of the duplicate fixture. -/
def mD2 : MethodInfo Nat :=
  { name := "MD"
    handler := fun _ _ =>
      some { msg_type := MessageType.methodReturn, path := none, interface := none,
             member := none, body := ["second"] } }

/-- Fixture interface "I.D" with duplicate method and property names. -/
def infoD : IfaceInfo Nat :=
  { name := "I.D", methods := [mD1, mD2], props := [{ name := "PD" }, { name := "PD" }] }

/-- Fixture registry: the seeded builtin interface plus "I.A" (tag 1),
"I.B" (tag 2) and "I.D" (tag 7); path "/" holds instances of tags 1, 2 and
the builtin properties tag, path "/2" holds exactly the tag-1 and tag-2
instances, path "/d" holds two instances with the duplicate tag 7. -/
def crW : Crossroads Nat :=
  (((((Crossroads.new_sync Nat).register 1 infoA).1.register 2 infoB).1.register 7 infoD).1.insert
      "/" (((PathData.new.insert 1 5).insert 2 9).insert dbusPropertiesTypeId 99)).insert
      "/2" ((PathData.new.insert 1 5).insert 2 9) |>.insert
      "/d" ((PathData.new.insert 7 11).insert 7 12)

/-- A method call addressed to "/2" / "I.A" / "MA". -/
def msgA : Message :=
  { msg_type := MessageType.methodCall, path := some "/2", interface := some "I.A",
    member := some "MA", body := [] }

/-- A method call addressed to "/2" / "I.B" / "MB". -/
def msgB : Message :=
  { msg_type := MessageType.methodCall, path := some "/2", interface := some "I.B",
    member := some "MB", body := [] }

/-- A method call addressed to "/" / "org.freedesktop.DBus.Properties" /
"Get". -/
def msgGet : Message :=
  { msg_type := MessageType.methodCall, path := some "/",
    interface := some "org.freedesktop.DBus.Properties", member := some "Get",
    body := ["I.A", "PA"] }

/-- The lookup bundle produced for `msgGet` against `crW`. -/
def lGet : MLookup Nat :=
  { cr := crW
    data := ((PathData.new.insert 1 5).insert 2 9).insert dbusPropertiesTypeId 99
    iface := 99
    iinfo := dbusPropertiesInfo Nat }

/-- The Get method entry of the builtin properties interface, at `V = Nat`. -/
def mGet : MethodInfo Nat := { name := "Get", handler := fun _ _ => none }

/-! Association-list lemmas for the `BTreeMap` model. -/

namespace BMap

theorem get_insert_self {A : Type} (m : BMap A) (k : String) (v : A) :
    (m.insert k v).1.get k = some v := by
  induction m with
  | nil => simp [insert, get]
  | cons e rest ih =>
    by_cases h : e.1 = k
    · simp [insert, get, h]
    · simp [insert, get, h, ih]

theorem insert_snd {A : Type} (m : BMap A) (k : String) (v : A) :
    (m.insert k v).2 = m.get k := by
  induction m with
  | nil => simp [insert, get]
  | cons e rest ih =>
    by_cases h : e.1 = k
    · simp [insert, get, h]
    · simp [insert, get, h, ih]

theorem get_insert_ne {A : Type} (m : BMap A) (k q : String) (v : A) (h : q ≠ k) :
    (m.insert k v).1.get q = m.get q := by
  induction m with
  | nil => simp [insert, get, Ne.symm h]
  | cons e rest ih =>
    by_cases he : e.1 = k
    · subst he
      simp [insert, get, Ne.symm h]
    · simp [insert, get, he, ih]

theorem get_eq_none_of_not_mem {A : Type} (m : BMap A) (k : String)
    (h : ∀ e ∈ m, e.1 ≠ k) : m.get k = none := by
  induction m with
  | nil => simp [get]
  | cons e rest ih =>
    have h1 : e.1 ≠ k := h e (by simp)
    have h2 : ∀ x ∈ rest, x.1 ≠ k := fun x hx => h x (by simp [hx])
    simp [get, h1, ih h2]

end BMap

/-- The first-match behaviour of `List.find?`: with an unmatched front
segment, the scan returns the first matching element. -/
theorem find_first {α : Type} (p : α → Bool) (l1 : List α) (x : α) (l2 : List α)
    (h1 : ∀ y ∈ l1, p y = false) (h2 : p x = true) :
    List.find? p (l1 ++ x :: l2) = some x := by
  induction l1 with
  | nil => simp [List.find?, h2]
  | cons a l ih =>
    have ha : p a = false := h1 a (by simp)
    have hl : ∀ y ∈ l, p y = false := fun y hy => h1 y (by simp [hy])
    simp [List.find?, ha, ih hl]

/-! Claim theorems. -/

/-- Claim C4: `register` inserts under the name carried by the
`IfaceInfo` with last-write-wins semantics and returns the previously
stored `IfaceInfo` for that name, if any; registering the same name twice
returns the first `IfaceInfo` on the second call, and a third registration
returns the second. -/
theorem register_last_write_wins {V : Type} (cr : Crossroads V)
    (t t1 t2 t3 : TypeId) (info i1 i2 i3 : IfaceInfo V)
    (h2 : i2.name = i1.name) (h3 : i3.name = i1.name) :
    (cr.register t info).2 = (cr.reg.get info.name).map Prod.snd
    ∧ (cr.register t info).1.reg.get info.name = some (t, info)
    ∧ ((cr.register t1 i1).1.register t2 i2).2 = some i1
    ∧ (((cr.register t1 i1).1.register t2 i2).1.register t3 i3).2 = some i2 := by
  refine ⟨?_, ?_, ?_, ?_⟩
  · simp [Crossroads.register, BMap.insert_snd]
  · simp [Crossroads.register, BMap.get_insert_self]
  · simp [Crossroads.register, BMap.insert_snd, h2, BMap.get_insert_self]
  · simp [Crossroads.register, BMap.insert_snd, h2, h3, BMap.get_insert_self]

/-- Witness for C4 at concrete inputs. -/
theorem register_last_write_wins_witness :
    ((Crossroads.new_sync Nat).register 1 infoA).2
        = (((Crossroads.new_sync Nat).reg.get infoA.name).map Prod.snd)
    ∧ ((Crossroads.new_sync Nat).register 1 infoA).1.reg.get infoA.name = some (1, infoA)
    ∧ (((Crossroads.new_sync Nat).register 1 infoA).1.register 1 infoA2).2 = some infoA
    ∧ ((((Crossroads.new_sync Nat).register 1 infoA).1.register 1 infoA2).1.register 1
          infoA3).2 = some infoA2 :=
  register_last_write_wins (Crossroads.new_sync Nat) 1 1 1 1 infoA infoA infoA2 infoA3
    rfl rfl

/-- Claim C5: immediately after construction, before any caller
registration, the interface registry already contains an entry for the
builtin properties interface exposing Get, Set and GetAll. -/
theorem new_sync_seeds_properties (V : Type) :
    (Crossroads.new_sync V).reg.get "org.freedesktop.DBus.Properties"
        = some (dbusPropertiesTypeId, dbusPropertiesInfo V)
    ∧ (dbusPropertiesInfo V).methods.map MethodInfo.name = ["Get", "Set", "GetAll"] :=
  ⟨rfl, rfl⟩

/-- Claim C7: inserting path data and querying that path returns the data
just inserted, whatever was stored before (last write wins per path); other
paths are unaffected; a path for which the table holds no entry yields
absent. -/
theorem insert_path_get_data {V : Type} (cr : Crossroads V) (p : String) (d : PathData V) :
    (cr.insert p d).get_data p = some d
    ∧ (∀ q, q ≠ p → (cr.insert p d).get_data q = cr.get_data q)
    ∧ (∀ q, (∀ e ∈ cr.paths, e.1 ≠ q) → cr.get_data q = none) := by
  refine ⟨?_, ?_, ?_⟩
  · simp [Crossroads.insert, Crossroads.get_data, BMap.get_insert_self]
  · intro q hq
    simp [Crossroads.insert, Crossroads.get_data, BMap.get_insert_ne _ _ _ _ hq]
  · intro q hq
    exact BMap.get_eq_none_of_not_mem cr.paths q hq

/-- Witness for C7 at concrete inputs. -/
theorem insert_path_get_data_witness :
    (crW.insert "/w" (PathData.new.insert 3 4)).get_data "/w"
        = some (PathData.new.insert 3 4)
    ∧ (crW.insert "/w" (PathData.new.insert 3 4)).get_data "/2" = crW.get_data "/2"
    ∧ crW.get_data "/y" = none :=
  ⟨(insert_path_get_data crW "/w" (PathData.new.insert 3 4)).1,
   (insert_path_get_data crW "/w" (PathData.new.insert 3 4)).2.1 "/2" (by decide),
   (insert_path_get_data crW "/w" (PathData.new.insert 3 4)).2.2 "/y" (by decide)⟩

/-- Claim C9: `dispatch` takes the registry by shared reference; in the
explicit-state embedding the state component is returned unchanged, so
every register result, interface lookup and `get_data` observation after a
dispatch equals the one before it. -/
theorem dispatch_preserves_state {V : Type} (cr : Crossroads V) (msg : Message) :
    (cr.dispatchSt msg).1 = cr
    ∧ (∀ i, ((cr.dispatchSt msg).1).reg.get i = cr.reg.get i)
    ∧ (∀ p, ((cr.dispatchSt msg).1).get_data p = cr.get_data p)
    ∧ (∀ t info, ((cr.dispatchSt msg).1).register t info = cr.register t info) :=
  ⟨rfl, fun _ => rfl, fun _ => rfl, fun _ _ => rfl⟩

/-- Claim C1: when the message is a method call whose headers are present,
the interface name is registered, the member matches a method of that
interface, the path is in the table and the path data holds an instance
tagged with the registered tag, `dispatch` returns exactly the replies the
handler of that method produced on that instance, wrapped as present. -/
theorem dispatch_invokes_matching_handler {V : Type} (cr : Crossroads V)
    (msg : Message) (p i m : String) (tid : TypeId) (iinfo : IfaceInfo V)
    (minfo : MethodInfo V) (data : PathData V) (e : TypeId × V)
    (hk : msg.msg_type = MessageType.methodCall)
    (hp : msg.path = some p) (hi : msg.interface = some i) (hm : msg.member = some m)
    (hreg : cr.reg.get i = some (tid, iinfo))
    (hfind : iinfo.methods.find? (fun x => x.name == m) = some minfo)
    (hpath : cr.paths.get p = some data)
    (hinst : data.find? (fun x => x.1 == tid) = some e) :
    cr.dispatch msg = some (minfo.handler e.2 msg).toList := by
  simp [Crossroads.dispatch, msg_headers, hk, hp, hi, hm, Crossroads.reg_lookup,
    hreg, hfind, hpath, hinst]

/-- Witness for C1 at concrete inputs: dispatching `msgA` against `crW`
yields the single reply the "MA" handler produces on the tag-1 instance. -/
theorem dispatch_invokes_matching_handler_witness :
    crW.dispatch msgA = some (mA.handler 5 msgA).toList :=
  dispatch_invokes_matching_handler crW msgA "/2" "I.A" "MA" 1 infoA mA
    ((PathData.new.insert 1 5).insert 2 9) (1, 5)
    rfl rfl rfl rfl rfl rfl rfl rfl

/-- Claim C10: when header extraction and the full lookup succeed, the
outcome of `dispatch` is never absent; in particular a handler that
produces no reply yields the present empty sequence, distinct from the
absent not-handled outcome. -/
theorem handler_no_reply_present_empty {V : Type} (cr : Crossroads V)
    (msg : Message) (h : MsgHeaders) (l : MLookup V) (minfo : MethodInfo V)
    (hh : msg_headers msg = some h)
    (hl : cr.reg_lookup h = some (l, minfo)) :
    cr.dispatch msg ≠ none
    ∧ (minfo.handler l.iface msg = none → cr.dispatch msg = some []) := by
  constructor
  · simp [Crossroads.dispatch, hh, hl]
  · intro hnone
    simp [Crossroads.dispatch, hh, hl, hnone, Option.toList]

/-- Witness for C10 at concrete inputs: the seeded Get handler produces no
reply, and dispatching `msgGet` against `crW` yields the present empty
sequence. -/
theorem handler_no_reply_present_empty_witness :
    crW.dispatch msgGet ≠ none
    ∧ (mGet.handler lGet.iface msgGet = none → crW.dispatch msgGet = some []) :=
  handler_no_reply_present_empty crW msgGet
    { m := "Get", i := "org.freedesktop.DBus.Properties", p := "/" } lGet mGet
    rfl rfl

/-- Header extraction fails on a non-method-call message. -/
theorem msg_headers_none_of_kind (msg : Message)
    (hk : msg.msg_type ≠ MessageType.methodCall) : msg_headers msg = none := by
  simp [msg_headers, hk]

/-- Header extraction fails when the path header is missing. -/
theorem msg_headers_none_of_path (msg : Message) (hp : msg.path = none) :
    msg_headers msg = none := by
  simp [msg_headers, hp]

/-- Header extraction fails when the interface header is missing. -/
theorem msg_headers_none_of_interface (msg : Message) (hi : msg.interface = none) :
    msg_headers msg = none := by
  cases hp : msg.path <;> simp [msg_headers, hp, hi]

/-- Header extraction fails when the member header is missing. -/
theorem msg_headers_none_of_member (msg : Message) (hm : msg.member = none) :
    msg_headers msg = none := by
  cases hp : msg.path <;> cases hi : msg.interface <;> simp [msg_headers, hp, hi, hm]

/-- Header extraction on a method call with all three headers present. -/
theorem msg_headers_some (msg : Message) (p i m : String)
    (hk : msg.msg_type = MessageType.methodCall)
    (hp : msg.path = some p) (hi : msg.interface = some i) (hm : msg.member = some m) :
    msg_headers msg = some { m := m, i := i, p := p } := by
  simp [msg_headers, hk, hp, hi, hm]


/-- Claim C2: `dispatch` returns the absent (not-handled) outcome exactly
when one of the structural lookups misses — wrong message kind, a missing
path/interface/member header, unregistered interface name, no method of
that interface carrying the member name, path absent from the path table,
or no instance at that path tagged with the registered tag.  Each disjunct
alone forces the absent outcome (the first miss short-circuits the rest),
and `dispatch` is a total function, so no fault is raised. -/
theorem dispatch_none_iff {V : Type} (cr : Crossroads V) (msg : Message) :
    cr.dispatch msg = none ↔
      (msg.msg_type ≠ MessageType.methodCall
       ∨ msg.path = none ∨ msg.interface = none ∨ msg.member = none
       ∨ ∃ p i m, msg.path = some p ∧ msg.interface = some i ∧ msg.member = some m ∧
           (cr.reg.get i = none
            ∨ ∃ tid iinfo, cr.reg.get i = some (tid, iinfo) ∧
                (iinfo.methods.find? (fun x => x.name == m) = none
                 ∨ ∃ minfo,
                     iinfo.methods.find? (fun x => x.name == m) = some minfo ∧
                     (cr.paths.get p = none
                      ∨ ∃ data, cr.paths.get p = some data ∧
                          data.find? (fun x => x.1 == tid) = none)))) := by
  constructor
  · intro hd
    by_cases hk : msg.msg_type = MessageType.methodCall
    · cases hp : msg.path with
      | none => exact Or.inr (Or.inl rfl)
      | some p =>
        cases hi : msg.interface with
        | none => exact Or.inr (Or.inr (Or.inl rfl))
        | some i =>
          cases hm : msg.member with
          | none => exact Or.inr (Or.inr (Or.inr (Or.inl rfl)))
          | some m =>
            have hh := msg_headers_some msg p i m hk hp hi hm
            refine Or.inr (Or.inr (Or.inr (Or.inr ⟨p, i, m, rfl, rfl, rfl, ?_⟩)))
            cases hr : cr.reg.get i with
            | none => exact Or.inl rfl
            | some ti =>
              obtain ⟨tid, iinfo⟩ := ti
              cases hf : iinfo.methods.find? (fun x => x.name == m) with
              | none => exact Or.inr ⟨tid, iinfo, rfl, Or.inl hf⟩
              | some minfo =>
                cases hpd : cr.paths.get p with
                | none => exact Or.inr ⟨tid, iinfo, rfl, Or.inr ⟨minfo, hf, Or.inl rfl⟩⟩
                | some data =>
                  cases hin : data.find? (fun x => x.1 == tid) with
                  | none =>
                    exact Or.inr ⟨tid, iinfo, rfl, Or.inr ⟨minfo, hf,
                      Or.inr ⟨data, rfl, hin⟩⟩⟩
                  | some e =>
                    have hsome : cr.dispatch msg
                        = some (minfo.handler e.2 msg).toList := by
                      simp [Crossroads.dispatch, hh, Crossroads.reg_lookup,
                        hr, hf, hpd, hin]
                    rw [hd] at hsome
                    exact Option.noConfusion hsome
    · exact Or.inl hk
  · intro hc
    rcases hc with hk | hp | hi | hm | ⟨p, i, m, hp, hi, hm, hrest⟩
    · simp [Crossroads.dispatch, msg_headers_none_of_kind msg hk]
    · simp [Crossroads.dispatch, msg_headers_none_of_path msg hp]
    · simp [Crossroads.dispatch, msg_headers_none_of_interface msg hi]
    · simp [Crossroads.dispatch, msg_headers_none_of_member msg hm]
    · by_cases hk : msg.msg_type = MessageType.methodCall
      · have hh := msg_headers_some msg p i m hk hp hi hm
        rcases hrest with hr | ⟨tid, iinfo, hr, hf | ⟨minfo, hf, hpd | ⟨data, hpd, hin⟩⟩⟩
        · simp [Crossroads.dispatch, hh, Crossroads.reg_lookup, hr]
        · simp [Crossroads.dispatch, hh, Crossroads.reg_lookup, hr, hf]
        · simp [Crossroads.dispatch, hh, Crossroads.reg_lookup, hr, hf, hpd]
        · simp [Crossroads.dispatch, hh, Crossroads.reg_lookup, hr, hf, hpd, hin]
      · simp [Crossroads.dispatch, msg_headers_none_of_kind msg hk]

/-- Claim C6: the property-bridge lookup resolves its string arguments
through the same two mappings as normal dispatch — the registered
(tag, info) pair for the interface name, the first property entry carrying
the property name, the first instance in the given path data carrying the
registered tag — and returns absent exactly when any of these misses. -/
theorem reg_prop_lookup_resolves {V : Type} (cr : Crossroads V)
    (data : PathData V) (iname pname : String) :
    (∀ ml pinfo, cr.reg_prop_lookup data iname pname = some (ml, pinfo) ↔
       ∃ tid iinfo e,
         cr.reg.get iname = some (tid, iinfo)
         ∧ iinfo.props.find? (fun x => x.name == pname) = some pinfo
         ∧ data.find? (fun x => x.1 == tid) = some e
         ∧ ml = { cr := cr, data := data, iface := e.2, iinfo := iinfo })
    ∧ (cr.reg_prop_lookup data iname pname = none ↔
        cr.reg.get iname = none
        ∨ ∃ tid iinfo, cr.reg.get iname = some (tid, iinfo) ∧
            (iinfo.props.find? (fun x => x.name == pname) = none
             ∨ data.find? (fun x => x.1 == tid) = none)) := by
  constructor
  · intro ml pinfo
    constructor
    · intro h
      cases hr : cr.reg.get iname with
      | none => simp [Crossroads.reg_prop_lookup, hr] at h
      | some ti =>
        obtain ⟨tid, iinfo⟩ := ti
        cases hf : iinfo.props.find? (fun x => x.name == pname) with
        | none => simp [Crossroads.reg_prop_lookup, hr, hf] at h
        | some pf =>
          cases hin : data.find? (fun x => x.1 == tid) with
          | none => simp [Crossroads.reg_prop_lookup, hr, hf, hin] at h
          | some e =>
            simp only [Crossroads.reg_prop_lookup, hr, hf, hin,
              Option.some.injEq, Prod.mk.injEq] at h
            obtain ⟨hml, hpf⟩ := h
            subst hpf
            exact ⟨tid, iinfo, e, rfl, hf, hin, hml.symm⟩
    · rintro ⟨tid, iinfo, e, hr, hf, hin, hml⟩
      subst hml
      simp [Crossroads.reg_prop_lookup, hr, hf, hin]
  · constructor
    · intro h
      cases hr : cr.reg.get iname with
      | none => exact Or.inl rfl
      | some ti =>
        obtain ⟨tid, iinfo⟩ := ti
        cases hf : iinfo.props.find? (fun x => x.name == pname) with
        | none => exact Or.inr ⟨tid, iinfo, rfl, Or.inl hf⟩
        | some pf =>
          cases hin : data.find? (fun x => x.1 == tid) with
          | none => exact Or.inr ⟨tid, iinfo, rfl, Or.inr hin⟩
          | some e => simp [Crossroads.reg_prop_lookup, hr, hf, hin] at h
    · rintro (hr | ⟨tid, iinfo, hr, hf | hin⟩)
      · simp [Crossroads.reg_prop_lookup, hr]
      · simp [Crossroads.reg_prop_lookup, hr, hf]
      · cases hf : iinfo.props.find? (fun x => x.name == pname) with
        | none => simp [Crossroads.reg_prop_lookup, hr, hf]
        | some pf => simp [Crossroads.reg_prop_lookup, hr, hf, hin]

/-- Claim C8: with duplicate method or property names inside one
`IfaceInfo`, or duplicate type tags inside one `PathData`, every scan of
`reg_lookup` and `reg_prop_lookup` returns the first matching entry in
stored order, so each lookup is deterministic for a fixed insertion
history. -/
theorem scans_first_match {V : Type} (cr : Crossroads V) (headers : MsgHeaders)
    (tid : TypeId) (iinfo : IfaceInfo V)
    (hreg : cr.reg.get headers.i = some (tid, iinfo)) :
    (∀ ms1 minfo ms2 (data : PathData V) d1 e d2,
       iinfo.methods = ms1 ++ minfo :: ms2 →
       (∀ x ∈ ms1, (x.name == headers.m) = false) →
       (minfo.name == headers.m) = true →
       cr.paths.get headers.p = some data →
       data = d1 ++ e :: d2 →
       (∀ y ∈ d1, (y.1 == tid) = false) →
       (e.1 == tid) = true →
       cr.reg_lookup headers
         = some ({ cr := cr, data := data, iface := e.2, iinfo := iinfo }, minfo))
    ∧ (∀ pname ps1 pinfo ps2 (data : PathData V) d1 e d2,
       iinfo.props = ps1 ++ pinfo :: ps2 →
       (∀ x ∈ ps1, (x.name == pname) = false) →
       (pinfo.name == pname) = true →
       data = d1 ++ e :: d2 →
       (∀ y ∈ d1, (y.1 == tid) = false) →
       (e.1 == tid) = true →
       cr.reg_prop_lookup data headers.i pname
         = some ({ cr := cr, data := data, iface := e.2, iinfo := iinfo }, pinfo)) := by
  constructor
  · intro ms1 minfo ms2 data d1 e d2 hms hnm hm hpd hdd hnd he
    have hf : iinfo.methods.find? (fun x => x.name == headers.m) = some minfo := by
      rw [hms]
      exact find_first _ ms1 minfo ms2 hnm hm
    have hin : data.find? (fun x => x.1 == tid) = some e := by
      rw [hdd]
      exact find_first _ d1 e d2 hnd he
    simp [Crossroads.reg_lookup, hreg, hf, hpd, hin]
  · intro pname ps1 pinfo ps2 data d1 e d2 hps hnp hp hdd hnd he
    have hf : iinfo.props.find? (fun x => x.name == pname) = some pinfo := by
      rw [hps]
      exact find_first _ ps1 pinfo ps2 hnp hp
    have hin : data.find? (fun x => x.1 == tid) = some e := by
      rw [hdd]
      exact find_first _ d1 e d2 hnd he
    simp [Crossroads.reg_prop_lookup, hreg, hf, hin]

/-- Witness for C8 at concrete inputs: interface "I.D" holds two methods
named "MD" and two properties named "PD", and path "/d" holds two
instances with the same tag 7; both lookups return the first entry. -/
theorem scans_first_match_witness :
    crW.reg_lookup { m := "MD", i := "I.D", p := "/d" }
      = some ({ cr := crW, data := (PathData.new.insert 7 11).insert 7 12,
                iface := 11, iinfo := infoD }, mD1)
    ∧ crW.reg_prop_lookup ((PathData.new.insert 7 11).insert 7 12) "I.D" "PD"
      = some ({ cr := crW, data := (PathData.new.insert 7 11).insert 7 12,
                iface := 11, iinfo := infoD }, { name := "PD" }) :=
  ⟨(scans_first_match crW { m := "MD", i := "I.D", p := "/d" } 7 infoD rfl).1
      [] mD1 [mD2] ((PathData.new.insert 7 11).insert 7 12) [] (7, 11) [(7, 12)]
      rfl (by simp) rfl rfl rfl (by simp) rfl,
   (scans_first_match crW { m := "MD", i := "I.D", p := "/d" } 7 infoD rfl).2
      "PD" [] { name := "PD" } [{ name := "PD" }]
      ((PathData.new.insert 7 11).insert 7 12) [] (7, 11) [(7, 12)]
      rfl (by simp) rfl rfl (by simp) rfl⟩

/-- Claim C3: with two instances of distinct tags at one path, each tag
backing a distinct registered interface, dispatching to either interface
invokes the handler on the instance whose tag equals the one registered
for that interface, never on the other instance. -/
theorem dispatch_never_other_instance {V : Type} (cr : Crossroads V)
    (p i1 i2 m1 m2 : String) (t1 t2 : TypeId) (info1 info2 : IfaceInfo V)
    (mi1 mi2 : MethodInfo V) (v1 v2 : V) (msg1 msg2 : Message)
    (hne : t1 ≠ t2)
    (hr1 : cr.reg.get i1 = some (t1, info1))
    (hr2 : cr.reg.get i2 = some (t2, info2))
    (hf1 : info1.methods.find? (fun x => x.name == m1) = some mi1)
    (hf2 : info2.methods.find? (fun x => x.name == m2) = some mi2)
    (hpd : cr.paths.get p = some [(t1, v1), (t2, v2)])
    (hk1 : msg1.msg_type = MessageType.methodCall) (hp1 : msg1.path = some p)
    (hi1 : msg1.interface = some i1) (hm1 : msg1.member = some m1)
    (hk2 : msg2.msg_type = MessageType.methodCall) (hp2 : msg2.path = some p)
    (hi2 : msg2.interface = some i2) (hm2 : msg2.member = some m2) :
    cr.dispatch msg1 = some (mi1.handler v1 msg1).toList
    ∧ cr.dispatch msg2 = some (mi2.handler v2 msg2).toList := by
  have ht : (t1 == t2) = false := by simp [hne]
  have hin1 : ([(t1, v1), (t2, v2)] : PathData V).find? (fun x => x.1 == t1)
      = some (t1, v1) := by simp [List.find?]
  have hin2 : ([(t1, v1), (t2, v2)] : PathData V).find? (fun x => x.1 == t2)
      = some (t2, v2) := by simp [List.find?, ht]
  constructor
  · simp [Crossroads.dispatch, msg_headers, hk1, hp1, hi1, hm1,
      Crossroads.reg_lookup, hr1, hf1, hpd, hin1]
  · simp [Crossroads.dispatch, msg_headers, hk2, hp2, hi2, hm2,
      Crossroads.reg_lookup, hr2, hf2, hpd, hin2]

/-- Witness for C3 at concrete inputs: the tag-1 instance 5 backs "I.A"
and the tag-2 instance 9 backs "I.B" at path "/2"; each dispatch invokes
the matching instance. -/
theorem dispatch_never_other_instance_witness :
    crW.dispatch msgA = some (mA.handler 5 msgA).toList
    ∧ crW.dispatch msgB = some (mB.handler 9 msgB).toList :=
  dispatch_never_other_instance crW "/2" "I.A" "I.B" "MA" "MB" 1 2 infoA infoB
    mA mB 5 9 msgA msgB (by decide) rfl rfl rfl rfl rfl rfl rfl rfl rfl rfl
    rfl rfl rfl
